import Mathlib

/-!
Verification of the RegLex-AI frontend compliance pipeline.

This file gives a shallow embedding, in Lean 4, of the TypeScript functions of
the RegLex-AI repository that build compliance results and document-level
aggregates, and proves (or refutes) the specified properties about them.

Embedded code:
* `Frontend/lib/fastapi-services.ts` — `retryFastapiRequest`,
  `shouldRetryFastAPI`, `FastAPIService.healthCheck`,
  `FastAPIService.verifyCompliance` (the per-clause result construction).
* `Frontend/lib/fastapi-client.ts` — `FastAPIDataTransformer.transformToFrontend`.
* `Frontend/lib/api.ts` — `complianceAPI.uploadDocument`, `complianceAPI.healthCheck`.

Numbers that are JavaScript floats in the source are modelled as rationals
(`ℚ`); the values produced by `Math.random()` are threaded in explicitly as
streams of rationals, with the JavaScript contract `0 ≤ r < 1` stated as a
hypothesis where a theorem needs it.
-/

namespace RegLex

/-- Severity levels used by `RiskAssessment.severity`
(the string union of None, Low, Medium and High in `lib/api.ts`). -/
inductive Severity where
  | sevNone
  | low
  | medium
  | high
deriving Repr, DecidableEq

/-- `RiskAssessment` from `lib/api.ts` (fields used by the embedded code). -/
structure RiskAssessment where
  severity : Severity
  category : String
  score : ℚ
  impact : String
  mitigation : String
deriving Repr, DecidableEq

/-- `MatchedRule` from `lib/api.ts` (the `metadata` record is not modelled;
no embedded function inspects it). -/
structure MatchedRule where
  rule_text : String
  score : ℚ
  is_relevant : Bool
  reason : String
deriving Repr, DecidableEq

/-- `ClauseInput` from `lib/api.ts`: fields id, text_en and optional metadata. -/
structure ClauseInput where
  id : String
  text_en : String
deriving Repr, DecidableEq

/-- `ComplianceResult` from `lib/api.ts`. -/
structure ComplianceResult where
  clause_id : String
  is_compliant : Bool
  confidence_score : ℚ
  matched_rules : List MatchedRule
  risk_assessment : RiskAssessment
  explanation : String
deriving Repr, DecidableEq

/-- A clause object in the `clauses` array returned by the backend upload
(`any[]` in the source; the embedded code only tests it for JS truthiness,
which holds for every object, so the payload is opaque). -/
structure BackendClause where
  payload : String
deriving Repr, DecidableEq

/-- The values returned by the `Math.random()` calls inside
`FastAPIService.verifyCompliance`, one stream per call site, indexed by the
clause index.  JavaScript guarantees each value lies in `[0, 1)`. -/
structure RandomDraws where
  riskDraw : ℕ → ℚ
  compliantDraw : ℕ → ℚ
  scoreDraw : ℕ → ℚ
  ruleScoreDraw : ℕ → ℚ
  confDraw : ℕ → ℚ

/-- The JavaScript `Math.random()` contract: every draw is in `[0, 1)`. -/
def DrawsInRange (rand : RandomDraws) : Prop :=
  ∀ i : ℕ,
    (0 ≤ rand.riskDraw i ∧ rand.riskDraw i < 1) ∧
    (0 ≤ rand.compliantDraw i ∧ rand.compliantDraw i < 1) ∧
    (0 ≤ rand.scoreDraw i ∧ rand.scoreDraw i < 1) ∧
    (0 ≤ rand.ruleScoreDraw i ∧ rand.ruleScoreDraw i < 1) ∧
    (0 ≤ rand.confDraw i ∧ rand.confDraw i < 1)

/-- The risk-level lookup indexing the array of Low, Medium, High by
`Math.floor(Math.random() * 3)`, from
`fastapi-services.ts:513`.  For a draw in `[0, 1)` the floor is 0, 1 or 2. -/
def riskLevelOfDraw (r : ℚ) : Severity :=
  if ⌊r * 3⌋ = 0 then .low
  else if ⌊r * 3⌋ = 1 then .medium
  else .high

/-- One element of the `data.clauses.map` in
`FastAPIService.verifyCompliance` (`fastapi-services.ts:509-541`), at clause
index `i`.  `backendClause` is `uploadResult.clauses[index]`, `none` when the
index is out of range of the backend clause list. -/
def mkComplianceResult (rand : RandomDraws) (i : ℕ) (clause : ClauseInput)
    (backendClause : Option BackendClause) : ComplianceResult :=
  let riskLevel := riskLevelOfDraw (rand.riskDraw i)
  let isCompliant :=
    if riskLevel = .low then decide (1/5 < rand.compliantDraw i)
    else decide (3/5 < rand.compliantDraw i)
  let riskAssessment : RiskAssessment :=
    { severity := riskLevel
      category := "Legal"
      score := rand.scoreDraw i * 10
      impact := "Risk assessment via FastAPI backend processing"
      mitigation :=
        if riskLevel = .high then "Immediate review required"
        else if riskLevel = .medium then "Review recommended"
        else "No immediate action required" }
  let matchedRules : List MatchedRule :=
    match backendClause with
    | some _ =>
        [{ rule_text := "SEBI Compliance Rule processed via FastAPI"
           score := rand.ruleScoreDraw i
           is_relevant := true
           reason := "Processed through FastAPI backend compliance pipeline" }]
    | none => []
  { clause_id := clause.id
    is_compliant := isCompliant
    confidence_score := rand.confDraw i * (2/5) + 3/5
    matched_rules := matchedRules
    risk_assessment := riskAssessment
    explanation := "Compliance analysis completed via FastAPI backend. Processing complete" }

/-- The `complianceResults` array built by `FastAPIService.verifyCompliance`
(`fastapi-services.ts:509-541`): one `ComplianceResult` per input clause,
pairing clause `index` with `uploadResult.clauses[index]`. -/
def verifyComplianceResults (rand : RandomDraws) (clauses : List ClauseInput)
    (backendClauses : List BackendClause) : List ComplianceResult :=
  clauses.enum.map fun p => mkComplianceResult rand p.1 p.2 backendClauses[p.1]?

theorem verifyComplianceResults_length (rand : RandomDraws)
    (clauses : List ClauseInput) (backendClauses : List BackendClause) :
    (verifyComplianceResults rand clauses backendClauses).length = clauses.length := by
  simp [verifyComplianceResults]

theorem verifyComplianceResults_get? (rand : RandomDraws)
    (clauses : List ClauseInput) (backendClauses : List BackendClause) (i : ℕ) :
    (verifyComplianceResults rand clauses backendClauses)[i]? =
      (clauses[i]?).map fun c => mkComplianceResult rand i c backendClauses[i]? := by
  simp only [verifyComplianceResults, List.getElem?_map, List.getElem?_enum]
  cases clauses[i]? with
  | none => rfl
  | some c => rfl

/-- C1: For every compliance verification request, the result list contains
exactly one `ComplianceResult` per input clause (no clause dropped or
duplicated), and the `clause_id` of each result equals the id of the corresponding
input clause, even when the backend returns fewer clauses than were
submitted. -/
theorem C1_one_result_per_clause (rand : RandomDraws)
    (clauses : List ClauseInput) (backendClauses : List BackendClause) :
    (verifyComplianceResults rand clauses backendClauses).length = clauses.length ∧
    ∀ i : ℕ,
      ((verifyComplianceResults rand clauses backendClauses)[i]?).map
          (fun r => r.clause_id) =
        (clauses[i]?).map (fun c => c.id) := by
  refine ⟨verifyComplianceResults_length rand clauses backendClauses, fun i => ?_⟩
  rw [verifyComplianceResults_get?]
  cases clauses[i]? with
  | none => rfl
  | some c => rfl

/-! ## `FastAPIDataTransformer.transformToFrontend` (fastapi-client.ts) -/

/-- A clause as delivered by the backend in `FastAPIResponse.clauses`
(`FastAPIClause` in fastapi-client.ts: all fields optional). -/
structure FastAPIClause where
  id : Option String
  text : Option String
  text_en : Option String
deriving Repr, DecidableEq

/-- `FastAPIComplianceResult` from fastapi-client.ts.  `is_compliant` is
declared `boolean` there, but the values arrive from backend JSON and the
transformer only uses JavaScript truthiness on them, so a missing/null value
is modelled as `none`. -/
structure FrontComplianceResult where
  clause_id : Option String
  is_compliant : Option Bool
  confidence_score : ℚ
  risk_assessment : Option RiskAssessment
deriving Repr, DecidableEq

/-- `FastAPIResponse` from fastapi-client.ts (fields read by the
transformer; `compliance_results || []` and `clauses || []` are modelled by
the fields being plain lists). -/
structure FastAPIResponseModel where
  summary : String
  clauses : List FastAPIClause
  compliance_results : List FrontComplianceResult
deriving Repr, DecidableEq

/-- JavaScript truthiness of a possibly-missing boolean. -/
def truthy : Option Bool → Bool
  | some true => true
  | _ => false

/-- JavaScript `Math.round`: round half toward positive infinity. -/
def jsRound (q : ℚ) : ℤ := ⌊q + 1/2⌋

/-- The record returned by `FastAPIDataTransformer.transformToFrontend`
(fields the claims are about; timestamps and the raw echo are omitted). -/
structure TransformResult where
  fileName : String
  summary : String
  overallScore : ℤ
  riskLevel : String
  totalClauses : ℕ
  compliantCount : ℕ
  nonCompliantCount : ℕ
  highRiskCount : ℕ
  mediumRiskCount : ℕ
  clauses : List FastAPIClause
  complianceResults : List FrontComplianceResult
deriving Repr, DecidableEq

/-- `FastAPIDataTransformer.transformToFrontend` (fastapi-client.ts
lines 868-914).  `totalClauses` is the JS expression
`complianceResults.length || clauses.length || 0`. -/
def transformToFrontend (backendData : FastAPIResponseModel)
    (fileName : String) : TransformResult :=
  let complianceResults := backendData.compliance_results
  let clauses := backendData.clauses
  let compliantCount := (complianceResults.filter fun r => truthy r.is_compliant).length
  let nonCompliantCount := (complianceResults.filter fun r => !truthy r.is_compliant).length
  let totalClauses := if complianceResults.length ≠ 0 then complianceResults.length
    else clauses.length
  let overallScore : ℤ := if totalClauses > 0
    then jsRound ((compliantCount : ℚ) / (totalClauses : ℚ) * 100)
    else 0
  let highRiskCount := (complianceResults.filter fun r =>
    r.risk_assessment.map (fun a => a.severity) = some .high).length
  let mediumRiskCount := (complianceResults.filter fun r =>
    r.risk_assessment.map (fun a => a.severity) = some .medium).length
  let riskLevel := if highRiskCount > 0 then "high"
    else if mediumRiskCount > 0 then "medium"
    else "low"
  { fileName := fileName
    summary := backendData.summary
    overallScore := overallScore
    riskLevel := riskLevel
    totalClauses := totalClauses
    compliantCount := compliantCount
    nonCompliantCount := nonCompliantCount
    highRiskCount := highRiskCount
    mediumRiskCount := mediumRiskCount
    clauses := clauses
    complianceResults := complianceResults }

theorem transform_compliantCount (b : FastAPIResponseModel) (f : String) :
    (transformToFrontend b f).compliantCount =
      (b.compliance_results.filter fun r => truthy r.is_compliant).length := rfl

theorem transform_nonCompliantCount (b : FastAPIResponseModel) (f : String) :
    (transformToFrontend b f).nonCompliantCount =
      (b.compliance_results.filter fun r => !truthy r.is_compliant).length := rfl

theorem transform_totalClauses (b : FastAPIResponseModel) (f : String) :
    (transformToFrontend b f).totalClauses =
      (if b.compliance_results.length ≠ 0 then b.compliance_results.length
       else b.clauses.length) := rfl

theorem transform_overallScore (b : FastAPIResponseModel) (f : String) :
    (transformToFrontend b f).overallScore =
      (if (transformToFrontend b f).totalClauses > 0
       then jsRound (((transformToFrontend b f).compliantCount : ℚ) /
         ((transformToFrontend b f).totalClauses : ℚ) * 100)
       else 0) := rfl

/-- Counting a list by a predicate and by its negation partitions it. -/
theorem length_filter_add_length_filter_not {α : Type} (l : List α) (p : α → Bool) :
    (l.filter p).length + (l.filter fun a => !p a).length = l.length := by
  induction l with
  | nil => rfl
  | cons a t ih =>
      by_cases hp : p a = true
      · simp [List.filter, hp, ← ih]; omega
      · have hp' : p a = false := by revert hp; cases p a <;> simp
        simp [List.filter, hp', ← ih]; omega

/-- C2 counterexample input: the backend returned one clause but an empty
compliance-results list. -/
def emptyResultsResponse : FastAPIResponseModel :=
  { summary := "s"
    clauses := [{ id := some "c1", text := some "t", text_en := none }]
    compliance_results := [] }

/-- C2, counterexample: with an empty compliance-results list and a non-empty
clause list, the code sets `totalClauses` to the clause-list length while the
compliant and non-compliant counts (the only counts it computes: there is no
undetermined count) sum to 0, so the counts do not partition the clause set. -/
theorem C2_counterexample :
    (transformToFrontend emptyResultsResponse "f.txt").compliantCount +
      (transformToFrontend emptyResultsResponse "f.txt").nonCompliantCount ≠
    (transformToFrontend emptyResultsResponse "f.txt").totalClauses := by
  decide

/-- C2, amended: the compliant and non-compliant counts (a result with a
null/missing verdict counts as non-compliant; the code computes no
undetermined count) always sum to the length of the compliance-results list,
and this sum equals the document-level `totalClauses` whenever the
compliance-results list is non-empty or the clause list is empty. -/
theorem C2_amended_counts_partition (b : FastAPIResponseModel) (f : String) :
    (transformToFrontend b f).compliantCount +
        (transformToFrontend b f).nonCompliantCount =
      b.compliance_results.length ∧
    (b.compliance_results ≠ [] ∨ b.clauses = [] →
      (transformToFrontend b f).compliantCount +
          (transformToFrontend b f).nonCompliantCount =
        (transformToFrontend b f).totalClauses) := by
  have hpart := length_filter_add_length_filter_not b.compliance_results
    (fun r => truthy r.is_compliant)
  constructor
  · rw [transform_compliantCount, transform_nonCompliantCount]
    exact hpart
  · intro h
    rw [transform_compliantCount, transform_nonCompliantCount, transform_totalClauses]
    rcases h with h | h
    · have : b.compliance_results.length ≠ 0 := by
        simpa [List.length_eq_zero] using h
      rw [if_pos this]
      exact hpart
    · by_cases hr : b.compliance_results.length ≠ 0
      · rw [if_pos hr]; exact hpart
      · rw [if_neg hr, h]
        push_neg at hr
        simp only [List.length_nil]
        omega

/-- Witness for the amended C2 at a concrete one-result input. -/
def oneResultResponse : FastAPIResponseModel :=
  { summary := "s"
    clauses := [{ id := some "c1", text := some "t", text_en := none }]
    compliance_results :=
      [{ clause_id := some "c1", is_compliant := none,
         confidence_score := 1/2, risk_assessment := none }] }

theorem C2_amended_witness :
    oneResultResponse.compliance_results ≠ [] ∧
    (transformToFrontend oneResultResponse "f.txt").compliantCount +
        (transformToFrontend oneResultResponse "f.txt").nonCompliantCount =
      (transformToFrontend oneResultResponse "f.txt").totalClauses :=
  ⟨by decide,
   (C2_amended_counts_partition oneResultResponse "f.txt").2 (Or.inl (by decide))⟩

/-- C3: the document-level overall score is the compliant share of the
document-level clause total, rendered as a rounded 0-100 percentage, and is 0
when the document has no clauses; it always lies in `[0, 100]`.  (The code
excludes nothing from the denominator: every compliance result, including one
with a null verdict, is counted in `totalClauses`.) -/
theorem C3_overall_score (b : FastAPIResponseModel) (f : String) :
    (transformToFrontend b f).overallScore =
      (if (transformToFrontend b f).totalClauses > 0
       then jsRound (((transformToFrontend b f).compliantCount : ℚ) /
         ((transformToFrontend b f).totalClauses : ℚ) * 100)
       else 0) ∧
    ((transformToFrontend b f).totalClauses = 0 →
      (transformToFrontend b f).overallScore = 0) ∧
    0 ≤ (transformToFrontend b f).overallScore ∧
    (transformToFrontend b f).overallScore ≤ 100 := by
  have hcle : (transformToFrontend b f).compliantCount ≤
      (transformToFrontend b f).totalClauses := by
    rw [transform_compliantCount, transform_totalClauses]
    by_cases hr : b.compliance_results.length ≠ 0
    · rw [if_pos hr]; exact List.length_filter_le _ _
    · rw [if_neg hr]
      push_neg at hr
      have : b.compliance_results = [] := List.length_eq_zero.mp hr
      simp [this]
  refine ⟨transform_overallScore b f, ?_, ?_, ?_⟩
  · intro h0
    rw [transform_overallScore]
    simp [h0]
  · rw [transform_overallScore]
    by_cases ht : (transformToFrontend b f).totalClauses > 0
    · rw [if_pos ht]
      unfold jsRound
      have hq : (0 : ℚ) ≤ ((transformToFrontend b f).compliantCount : ℚ) /
          ((transformToFrontend b f).totalClauses : ℚ) * 100 := by
        positivity
      have : (0 : ℤ) ≤ ⌊((transformToFrontend b f).compliantCount : ℚ) /
          ((transformToFrontend b f).totalClauses : ℚ) * 100 + 1/2⌋ := by
        apply Int.floor_nonneg.mpr
        linarith
      linarith
    · rw [if_neg ht]
  · rw [transform_overallScore]
    by_cases ht : (transformToFrontend b f).totalClauses > 0
    · rw [if_pos ht]
      unfold jsRound
      have htq : (0 : ℚ) < ((transformToFrontend b f).totalClauses : ℚ) := by
        exact_mod_cast ht
      have hratio : ((transformToFrontend b f).compliantCount : ℚ) /
          ((transformToFrontend b f).totalClauses : ℚ) ≤ 1 := by
        rw [div_le_one htq]
        exact_mod_cast hcle
      have : ((transformToFrontend b f).compliantCount : ℚ) /
          ((transformToFrontend b f).totalClauses : ℚ) * 100 + 1/2 ≤ 100 + 1/2 := by
        nlinarith
      calc ⌊((transformToFrontend b f).compliantCount : ℚ) /
          ((transformToFrontend b f).totalClauses : ℚ) * 100 + 1/2⌋
          ≤ ⌊(100 : ℚ) + 1/2⌋ := Int.floor_le_floor this
        _ = 100 := by norm_num
    · rw [if_neg ht]; norm_num

/-- A backend response with no clauses and no compliance results. -/
def emptyResponse : FastAPIResponseModel :=
  { summary := "s", clauses := [], compliance_results := [] }

theorem C3_witness :
    (transformToFrontend emptyResponse "f.txt").totalClauses = 0 ∧
    (transformToFrontend emptyResponse "f.txt").overallScore = 0 :=
  ⟨by decide, (C3_overall_score emptyResponse "f.txt").2.1 (by decide)⟩

/-! ## Claims about the per-clause results of `verifyCompliance` -/

/-- A concrete random-draw assignment whose every draw is the constant `q`. -/
def constDraws (q : ℚ) : RandomDraws :=
  { riskDraw := fun _ => q
    compliantDraw := fun _ => q
    scoreDraw := fun _ => q
    ruleScoreDraw := fun _ => q
    confDraw := fun _ => q }

theorem constDraws_inRange (q : ℚ) (h0 : 0 ≤ q) (h1 : q < 1) :
    DrawsInRange (constDraws q) := by
  intro i
  exact ⟨⟨h0, h1⟩, ⟨h0, h1⟩, ⟨h0, h1⟩, ⟨h0, h1⟩, ⟨h0, h1⟩⟩

/-- Single test clause used in the concrete counterexamples. -/
def clauseC1 : ClauseInput := { id := "c1", text_en := "t" }

/-- C4, counterexample: for a clause for which the backend returned no
corresponding clause (no provider-derived data at all), the produced result
still carries a confidence score of `0.8`, not `0`, and its `is_compliant`
field is a plain boolean — the code produces no `undetermined` value. -/
theorem C4_counterexample :
    DrawsInRange (constDraws (1/2)) ∧
    (verifyComplianceResults (constDraws (1/2)) [clauseC1] []).map
        (fun r => r.confidence_score) = [4/5] ∧
    ((4 : ℚ)/5) ≠ 0 := by
  refine ⟨constDraws_inRange (1/2) (by norm_num) (by norm_num), ?_, by norm_num⟩
  simp only [verifyComplianceResults, clauseC1, List.enum, List.enumFrom,
    List.map_cons, List.map_nil, mkComplianceResult, constDraws]
  norm_num

/-- C4, amended: a clause for which the backend returned no corresponding
clause still receives a boolean verdict; its matched-rule list is empty and
its confidence score lies in `[0.6, 1)` — never `0`, and never an
`undetermined` marker. -/
theorem C4_amended_no_backend_clause (rand : RandomDraws)
    (clauses : List ClauseInput) (backendClauses : List BackendClause) (i : ℕ)
    (hrand : DrawsInRange rand) (hi : i < clauses.length)
    (hbc : backendClauses.length ≤ i) :
    ∃ r, (verifyComplianceResults rand clauses backendClauses)[i]? = some r ∧
      r.matched_rules = [] ∧
      3/5 ≤ r.confidence_score ∧ r.confidence_score < 1 ∧
      r.confidence_score ≠ 0 := by
  obtain ⟨c, hc⟩ : ∃ c, clauses[i]? = some c := by
    rw [List.getElem?_eq_getElem hi]
    exact ⟨_, rfl⟩
  have hnone : backendClauses[i]? = none := List.getElem?_eq_none hbc
  refine ⟨mkComplianceResult rand i c none, ?_, ?_, ?_, ?_, ?_⟩
  · rw [verifyComplianceResults_get?, hc, hnone]; rfl
  · simp [mkComplianceResult]
  · have h := ((hrand i).2.2.2.2).1
    simp only [mkComplianceResult]
    nlinarith
  · have h := ((hrand i).2.2.2.2).2
    simp only [mkComplianceResult]
    nlinarith
  · have h := ((hrand i).2.2.2.2).1
    simp only [mkComplianceResult]
    nlinarith

theorem C4_amended_witness :
    DrawsInRange (constDraws (1/2)) ∧ 0 < [clauseC1].length ∧
    ([] : List BackendClause).length ≤ 0 ∧
    ∃ r, (verifyComplianceResults (constDraws (1/2)) [clauseC1] [])[0]? = some r ∧
      r.matched_rules = [] ∧
      3/5 ≤ r.confidence_score ∧ r.confidence_score < 1 ∧
      r.confidence_score ≠ 0 :=
  ⟨constDraws_inRange (1/2) (by norm_num) (by norm_num), by decide, by decide,
   C4_amended_no_backend_clause (constDraws (1/2)) [clauseC1] [] 0
     (constDraws_inRange (1/2) (by norm_num) (by norm_num)) (by decide) (by decide)⟩

/-- C5, counterexample: two runs on the identical request (same clauses, same
backend clause list), differing only in the values `Math.random()` happened
to return, produce different results — the result construction is not
deterministic in its inputs. -/
theorem C5_counterexample :
    DrawsInRange (constDraws 0) ∧
    DrawsInRange (constDraws (7/10)) ∧
    verifyComplianceResults (constDraws 0) [clauseC1] [] ≠
      verifyComplianceResults (constDraws (7/10)) [clauseC1] [] := by
  refine ⟨constDraws_inRange 0 (by norm_num) (by norm_num),
    constDraws_inRange (7/10) (by norm_num) (by norm_num), ?_⟩
  have h1 : ⌊(0 : ℚ) * 3⌋ = 0 := by norm_num
  have h2 : ⌊(7/10 : ℚ) * 3⌋ = 2 := by
    rw [show ((7 : ℚ)/10 * 3) = 21/10 by norm_num, Int.floor_eq_iff]
    norm_num
  have hA : (verifyComplianceResults (constDraws 0) [clauseC1] []).map
      (fun r => r.is_compliant) = [false] := by
    simp only [verifyComplianceResults, clauseC1, List.enum, List.enumFrom,
      List.map_cons, List.map_nil, mkComplianceResult, constDraws,
      riskLevelOfDraw, h1]
    norm_num
  have hB : (verifyComplianceResults (constDraws (7/10)) [clauseC1] []).map
      (fun r => r.is_compliant) = [true] := by
    simp only [verifyComplianceResults, clauseC1, List.enum, List.enumFrom,
      List.map_cons, List.map_nil, mkComplianceResult, constDraws,
      riskLevelOfDraw, h2]
    norm_num
  intro h
  rw [h, hB] at hA
  simp at hA

/-- C5, amended: the result construction is deterministic only as a function
of the request together with the sampled random values: runs agreeing on the
random draws agree on everything, and all runs (regardless of draws) agree on
the random-independent fields — clause ids, explanations, matched-rule texts,
relevance flags and reasons, and the risk category and impact.  The fields
`is_compliant`, `confidence_score`, the risk severity/score/mitigation and
the matched-rule similarity score are derived from `Math.random()` and may
differ between runs. -/
theorem C5_amended_deterministic_modulo_randomness (rand₁ rand₂ : RandomDraws)
    (clauses : List ClauseInput) (backendClauses : List BackendClause) :
    (rand₁ = rand₂ →
      verifyComplianceResults rand₁ clauses backendClauses =
        verifyComplianceResults rand₂ clauses backendClauses) ∧
    (verifyComplianceResults rand₁ clauses backendClauses).map
        (fun r => (r.clause_id, r.explanation,
          r.matched_rules.map (fun m => (m.rule_text, m.is_relevant, m.reason)),
          r.risk_assessment.category, r.risk_assessment.impact)) =
      (verifyComplianceResults rand₂ clauses backendClauses).map
        (fun r => (r.clause_id, r.explanation,
          r.matched_rules.map (fun m => (m.rule_text, m.is_relevant, m.reason)),
          r.risk_assessment.category, r.risk_assessment.impact)) := by
  constructor
  · rintro rfl; rfl
  · simp only [verifyComplianceResults, List.map_map]
    apply List.map_congr_left
    intro p _
    cases hb : backendClauses[p.1]? <;>
      simp [mkComplianceResult, hb]

theorem C5_amended_witness :
    (constDraws 0 = constDraws 0 →
      verifyComplianceResults (constDraws 0) [clauseC1] [] =
        verifyComplianceResults (constDraws 0) [clauseC1] []) ∧
    (verifyComplianceResults (constDraws 0) [clauseC1] []).map
        (fun r => (r.clause_id, r.explanation,
          r.matched_rules.map (fun m => (m.rule_text, m.is_relevant, m.reason)),
          r.risk_assessment.category, r.risk_assessment.impact)) =
      (verifyComplianceResults (constDraws (7/10)) [clauseC1] []).map
        (fun r => (r.clause_id, r.explanation,
          r.matched_rules.map (fun m => (m.rule_text, m.is_relevant, m.reason)),
          r.risk_assessment.category, r.risk_assessment.impact)) :=
  ⟨(C5_amended_deterministic_modulo_randomness (constDraws 0) (constDraws 0)
      [clauseC1] []).1,
   (C5_amended_deterministic_modulo_randomness (constDraws 0) (constDraws (7/10))
      [clauseC1] []).2⟩

/-- C6: under the JavaScript guarantee that `Math.random()` returns values in
`[0, 1)`, every produced compliance result has a confidence score in `[0, 1]`
and every matched rule a similarity score in `[0, 1]`. -/
theorem C6_scores_in_unit_interval (rand : RandomDraws)
    (clauses : List ClauseInput) (backendClauses : List BackendClause)
    (hrand : DrawsInRange rand) :
    ∀ r ∈ verifyComplianceResults rand clauses backendClauses,
      (0 ≤ r.confidence_score ∧ r.confidence_score ≤ 1) ∧
      ∀ m ∈ r.matched_rules, 0 ≤ m.score ∧ m.score ≤ 1 := by
  intro r hr
  simp only [verifyComplianceResults, List.mem_map] at hr
  obtain ⟨p, _, rfl⟩ := hr
  have hconf := (hrand p.1).2.2.2.2
  have hrule := (hrand p.1).2.2.2.1
  refine ⟨⟨?_, ?_⟩, ?_⟩
  · simp only [mkComplianceResult]
    nlinarith [hconf.1]
  · simp only [mkComplianceResult]
    nlinarith [hconf.2]
  · intro m hm
    cases hb : backendClauses[p.1]? with
    | none => simp [mkComplianceResult, hb] at hm
    | some bc =>
        simp only [mkComplianceResult, hb, List.mem_singleton] at hm
        subst hm
        exact ⟨hrule.1, le_of_lt hrule.2⟩

theorem C6_witness :
    DrawsInRange (constDraws (1/2)) ∧
    ∀ r ∈ verifyComplianceResults (constDraws (1/2)) [clauseC1]
        [{ payload := "b" }],
      (0 ≤ r.confidence_score ∧ r.confidence_score ≤ 1) ∧
      ∀ m ∈ r.matched_rules, 0 ≤ m.score ∧ m.score ≤ 1 :=
  ⟨constDraws_inRange (1/2) (by norm_num) (by norm_num),
   C6_scores_in_unit_interval (constDraws (1/2)) [clauseC1] [{ payload := "b" }]
     (constDraws_inRange (1/2) (by norm_num) (by norm_num))⟩

/-! ## `complianceAPI.uploadDocument` and the health checks -/

/-- Errors a request can fail with, as the embedded code distinguishes them:
an axios error with or without an HTTP response (a network failure has none),
or any other thrown value. -/
inductive AppError where
  | axios (hasResponse : Bool) (status : ℕ)
  | other
deriving Repr, DecidableEq

/-- Body of the backend `/health` endpoint response
(`FastAPIHealthResponse`). -/
structure HealthResponse where
  status : String
  message : String
deriving Repr, DecidableEq

/-- The health-check result fields the claims are about. -/
structure HealthCheckModel where
  status : String
  service : String
deriving Repr, DecidableEq

/-- `FastAPIService.healthCheck` (fastapi-services.ts lines 202-275).
`useMock` is `APP_CONFIG.USE_MOCK_API === true`; `backendOutcome` is the
result of `retryFastapiRequest` around the GET of the health endpoint, which
throws when the backend is unreachable after retries. -/
def fastAPIServiceHealthCheck (useMock : Bool)
    (backendOutcome : Except AppError HealthResponse) : HealthCheckModel :=
  if useMock then
    { status := "healthy", service := "SEBI Compliance API (Mock)" }
  else
    match backendOutcome with
    | .ok healthData =>
        { status := if healthData.status = "healthy" then "healthy" else "unhealthy"
          service := "SEBI Compliance FastAPI Backend" }
    | .error _ =>
        { status := "unhealthy", service := "SEBI Compliance FastAPI Backend" }

/-- `complianceAPI.healthCheck` (lib/api.ts lines 349-360): the code makes no
request at all — the comment reads, verbatim, that for demo purposes it
always returns healthy status.  The backend outcome parameter records the
state of the environment; the function ignores it. -/
def complianceAPIHealthCheck
    (_backendOutcome : Except AppError HealthResponse) : HealthCheckModel :=
  { status := "healthy", service := "SEBI Compliance API (Demo)" }

/-- C8, counterexample: with the backend unreachable (a network error and no
HTTP response), the exposed `complianceAPI.healthCheck` still reports
healthy. -/
theorem C8_counterexample :
    (complianceAPIHealthCheck (.error (.axios false 0))).status = "healthy" := rfl

/-- C8, amended: neither health check consults the retrieval index or the LLM
providers.  `FastAPIService.healthCheck` (in non-mock mode) reports healthy
exactly when the backend `/health` endpoint responds and its body carries
status `"healthy"` — in particular it reports unhealthy whenever the backend
is unreachable — while `complianceAPI.healthCheck` is a demo stub that
reports healthy unconditionally. -/
theorem C8_amended_health_signal :
    (∀ outcome : Except AppError HealthResponse,
      ((fastAPIServiceHealthCheck false outcome).status = "healthy" ↔
        ∃ h, outcome = .ok h ∧ h.status = "healthy")) ∧
    (∀ e : AppError,
      (fastAPIServiceHealthCheck false (.error e)).status = "unhealthy") ∧
    (∀ outcome : Except AppError HealthResponse,
      (complianceAPIHealthCheck outcome).status = "healthy") := by
  refine ⟨fun outcome => ?_, fun e => rfl, fun outcome => rfl⟩
  cases outcome with
  | error e =>
      simp only [fastAPIServiceHealthCheck, Bool.false_eq_true, if_false]
      constructor
      · intro h; exact absurd h (by simp)
      · rintro ⟨h, hh, _⟩; exact absurd hh (by simp)
  | ok healthData =>
      simp only [fastAPIServiceHealthCheck, Bool.false_eq_true, if_false]
      by_cases hs : healthData.status = "healthy"
      · simp [hs]
      · simp only [hs, if_false]
        constructor
        · intro h; exact absurd h (by simp)
        · rintro ⟨h, hh, hstat⟩
          cases hh
          exact absurd hstat hs

/-- The value of `MockComplianceService.uploadDocument` — the mock service
the catch block of `complianceAPI.uploadDocument` falls back to.  Its source
file (`lib/mock-services.ts`) is not part of the sources; only the fields the
fallback spread carries forward are modelled, as an opaque value. -/
structure MockUploadResult where
  summary : String
  clauses : List FastAPIClause
  compliance_results : List FrontComplianceResult
deriving Repr, DecidableEq

/-- The `Math.random()` values drawn inside the fallback branch of
`complianceAPI.uploadDocument`. -/
structure FallbackDraws where
  scoreDraw : ℚ
  riskDraw : ℚ
  totalDraw : ℚ
  compliantDraw : ℚ
  nonCompliantDraw : ℚ
  highDraw : ℚ

/-- The lookup indexing the array of low, medium, high by
`Math.floor(Math.random() * 3)`. -/
def jsRiskString (r : ℚ) : String :=
  if ⌊r * 3⌋ = 0 then "low"
  else if ⌊r * 3⌋ = 1 then "medium"
  else "high"

/-- The value `complianceAPI.uploadDocument` returns to its caller (fields
common to the success and fallback branches). -/
structure UploadReturnModel where
  summary : String
  clauses : List FastAPIClause
  compliance_results : List FrontComplianceResult
  fileName : String
  overallScore : ℤ
  riskLevel : String
  totalClauses : ℤ
  compliantCount : ℤ
  nonCompliantCount : ℤ
  highRiskCount : ℤ
deriving Repr, DecidableEq

/-- `complianceAPI.uploadDocument` (lib/api.ts lines 247-323), real-API path
(`USE_MOCK_API` off).  `backendOutcome` is the result of
`FastAPIService.uploadDocument` in fastapi-client.ts, which throws on
backend failure; the `try` block transforms a successful response with
`FastAPIDataTransformer.transformToFrontend`, and the `catch` block always
resolves with a substitute result built from the value of the mock service and
fresh random metrics — it rethrows nothing. -/
def complianceAPIUploadDocument
    (backendOutcome : Except AppError FastAPIResponseModel)
    (fileName : String) (mock : MockUploadResult) (fb : FallbackDraws) :
    Except AppError UploadReturnModel :=
  match backendOutcome with
  | .ok backendResponse =>
      let transformedData := transformToFrontend backendResponse fileName
      .ok { summary := transformedData.summary
            clauses := transformedData.clauses
            compliance_results := transformedData.complianceResults
            fileName := transformedData.fileName
            overallScore := transformedData.overallScore
            riskLevel := transformedData.riskLevel
            totalClauses := (transformedData.totalClauses : ℤ)
            compliantCount := (transformedData.compliantCount : ℤ)
            nonCompliantCount := (transformedData.nonCompliantCount : ℤ)
            highRiskCount := (transformedData.highRiskCount : ℤ) }
  | .error _ =>
      .ok { summary := mock.summary
            clauses := mock.clauses
            compliance_results := mock.compliance_results
            fileName := fileName
            overallScore := ⌊fb.scoreDraw * 30⌋ + 70
            riskLevel := jsRiskString fb.riskDraw
            totalClauses := ⌊fb.totalDraw * 20⌋ + 10
            compliantCount := ⌊fb.compliantDraw * 15⌋ + 8
            nonCompliantCount := ⌊fb.nonCompliantDraw * 5⌋ + 2
            highRiskCount := ⌊fb.highDraw * 3⌋ }

/-- C7: once the document reaches `complianceAPI.uploadDocument`, the caller
always receives a report value: a successful backend run is transformed and
returned, and every backend processing error is absorbed by the catch block,
which returns the mock-service substitute instead of rethrowing. -/
theorem C7_upload_always_returns
    (backendOutcome : Except AppError FastAPIResponseModel)
    (fileName : String) (mock : MockUploadResult) (fb : FallbackDraws) :
    (∃ v, complianceAPIUploadDocument backendOutcome fileName mock fb = .ok v) ∧
    (∀ e, backendOutcome = .error e →
      ∃ v, complianceAPIUploadDocument backendOutcome fileName mock fb = .ok v ∧
        v.summary = mock.summary ∧
        v.compliance_results = mock.compliance_results ∧
        v.fileName = fileName) := by
  constructor
  · cases backendOutcome with
    | ok resp => exact ⟨_, rfl⟩
    | error e => exact ⟨_, rfl⟩
  · rintro e rfl
    exact ⟨_, rfl, rfl, rfl, rfl⟩

/-- Concrete fallback draws used in the C7 witness. -/
def fbHalf : FallbackDraws :=
  { scoreDraw := 1/2, riskDraw := 1/2, totalDraw := 1/2,
    compliantDraw := 1/2, nonCompliantDraw := 1/2, highDraw := 1/2 }

/-- Concrete mock value used in the C7 witness. -/
def mockEmpty : MockUploadResult :=
  { summary := "mock", clauses := [], compliance_results := [] }

theorem C7_upload_witness :
    (∃ v, complianceAPIUploadDocument (.error .other) "f.txt" mockEmpty fbHalf
        = .ok v) ∧
    (∃ v, complianceAPIUploadDocument (.error .other) "f.txt" mockEmpty fbHalf
        = .ok v ∧
      v.summary = mockEmpty.summary ∧
      v.compliance_results = mockEmpty.compliance_results ∧
      v.fileName = "f.txt") :=
  ⟨(C7_upload_always_returns (.error .other) "f.txt" mockEmpty fbHalf).1,
   (C7_upload_always_returns (.error .other) "f.txt" mockEmpty fbHalf).2
     .other rfl⟩

/-! ## `retryFastapiRequest` (fastapi-services.ts lines 76-128) -/

/-- Outcome of a single invocation of the request function inside the retry
loop. -/
inductive FetchOutcome (α : Type) where
  | success (v : α)
  | failure (e : AppError)
deriving Repr, DecidableEq

/-- `shouldRetryFastAPI` (fastapi-services.ts lines 124-128): network errors
(no response) are retryable, as are HTTP 5xx and 429. -/
def shouldRetryFastAPI (hasResponse : Bool) (status : ℕ) : Bool :=
  if !hasResponse then true
  else decide (500 ≤ status) || decide (status = 429)

/-- The guard `error instanceof AxiosError && !shouldRetryFastAPI(error)`
(fastapi-services.ts line 105): only an axios error judged non-retryable
makes the loop rethrow immediately; any other thrown value is retried. -/
def throwsImmediately : AppError → Bool
  | .axios hasResponse status => !shouldRetryFastAPI hasResponse status
  | .other => false

/-- `min(delay * Math.pow(2, attempt), maxDelay)` plus the 10% jitter
`Math.random() * 0.1 * exponentialDelay` (fastapi-services.ts
lines 111-113). -/
def backoffDelay (delay maxDelay : ℚ) (jitterDraw : ℕ → ℚ) (attempt : ℕ) : ℚ :=
  let expDelay := min (delay * 2 ^ attempt) maxDelay
  expDelay + jitterDraw attempt * (1/10) * expDelay

/-- Observable behaviour of one run of `retryFastapiRequest`: the value
returned or error thrown, the number of attempts performed, and the backoff
delays slept between attempts, in order. -/
structure RetryRun (α : Type) where
  result : Except AppError α
  attemptsMade : ℕ
  delays : List ℚ
deriving Repr

/-- The loop body of `retryFastapiRequest` from the attempt with index
`attempt` on, with `remaining` further attempts allowed after it
(`remaining = retries - attempt` at the call).  When `remaining = 0` the
attempt is the last one: on failure the loop breaks and the last error is
thrown, before the retryability check is ever reached — exactly the order of
the checks at fastapi-services.ts lines 99 and 105. -/
def retryAux {α : Type} (attempts : ℕ → FetchOutcome α) (delay maxDelay : ℚ)
    (jitterDraw : ℕ → ℚ) : ℕ → ℕ → RetryRun α
  | attempt, 0 =>
      match attempts attempt with
      | .success v => ⟨.ok v, 1, []⟩
      | .failure e => ⟨.error e, 1, []⟩
  | attempt, remaining + 1 =>
      match attempts attempt with
      | .success v => ⟨.ok v, 1, []⟩
      | .failure e =>
          if throwsImmediately e then ⟨.error e, 1, []⟩
          else
            let rest := retryAux attempts delay maxDelay jitterDraw
              (attempt + 1) remaining
            ⟨rest.result, rest.attemptsMade + 1,
              backoffDelay delay maxDelay jitterDraw attempt :: rest.delays⟩

/-- `retryFastapiRequest(requestFn, retries, delay, maxDelay)`
(fastapi-services.ts lines 76-122): the `for` loop runs `attempt` from `0`
to `retries` inclusive.  `attempts i` is the outcome of the `i`-th invocation
of `requestFn`; `jitterDraw i` the `Math.random()` value drawn after a
retryable failure of attempt `i`. -/
def retryFastapiRequest {α : Type} (attempts : ℕ → FetchOutcome α)
    (retries : ℕ) (delay maxDelay : ℚ) (jitterDraw : ℕ → ℚ) : RetryRun α :=
  retryAux attempts delay maxDelay jitterDraw 0 retries

theorem retryAux_attemptsMade_pos {α : Type} (attempts : ℕ → FetchOutcome α)
    (delay maxDelay : ℚ) (jitterDraw : ℕ → ℚ) (attempt remaining : ℕ) :
    1 ≤ (retryAux attempts delay maxDelay jitterDraw attempt remaining).attemptsMade := by
  cases remaining with
  | zero => cases h : attempts attempt <;> simp [retryAux, h]
  | succ r =>
      cases h : attempts attempt with
      | success v => simp [retryAux, h]
      | failure e =>
          by_cases ht : throwsImmediately e = true <;>
            simp [retryAux, h, ht]

theorem retryAux_attemptsMade_le {α : Type} (attempts : ℕ → FetchOutcome α)
    (delay maxDelay : ℚ) (jitterDraw : ℕ → ℚ) :
    ∀ (remaining attempt : ℕ),
      (retryAux attempts delay maxDelay jitterDraw attempt remaining).attemptsMade ≤
        remaining + 1 := by
  intro remaining
  induction remaining with
  | zero =>
      intro attempt
      cases h : attempts attempt <;> simp [retryAux, h]
  | succ r ih =>
      intro attempt
      cases h : attempts attempt with
      | success v => simp [retryAux, h]
      | failure e =>
          cases ht : throwsImmediately e with
          | true => simp [retryAux, h, ht]
          | false =>
              have hstep : (retryAux attempts delay maxDelay jitterDraw attempt
                  (r + 1)).attemptsMade =
                  (retryAux attempts delay maxDelay jitterDraw (attempt + 1)
                    r).attemptsMade + 1 := by
                simp [retryAux, h, ht]
              rw [hstep]
              have := ih (attempt + 1)
              omega

/-- After `k` retryable failures the loop behaves, observationally, as the
run that starts at attempt `attempt + k`, prefixed by the `k` failed attempts
and their backoff sleeps. -/
theorem retryAux_reach {α : Type} (attempts : ℕ → FetchOutcome α)
    (delay maxDelay : ℚ) (jitterDraw : ℕ → ℚ) :
    ∀ (k attempt remaining : ℕ), k ≤ remaining →
      (∀ i, i < k → ∃ e, attempts (attempt + i) = .failure e ∧
        throwsImmediately e = false) →
      (retryAux attempts delay maxDelay jitterDraw attempt remaining).result =
        (retryAux attempts delay maxDelay jitterDraw
          (attempt + k) (remaining - k)).result ∧
      (retryAux attempts delay maxDelay jitterDraw attempt remaining).attemptsMade =
        k + (retryAux attempts delay maxDelay jitterDraw
          (attempt + k) (remaining - k)).attemptsMade ∧
      (retryAux attempts delay maxDelay jitterDraw attempt remaining).delays =
        (List.range k).map
            (fun t => backoffDelay delay maxDelay jitterDraw (attempt + t)) ++
          (retryAux attempts delay maxDelay jitterDraw
            (attempt + k) (remaining - k)).delays := by
  intro k
  induction k with
  | zero =>
      intro attempt remaining _ _
      simp
  | succ k ih =>
      intro attempt remaining hk hfail
      obtain ⟨r, rfl⟩ : ∃ r, remaining = r + 1 := by
        cases remaining with
        | zero => omega
        | succ r => exact ⟨r, rfl⟩
      obtain ⟨e, he, hte⟩ := hfail 0 (Nat.succ_pos k)
      rw [Nat.add_zero] at he
      have hres : (retryAux attempts delay maxDelay jitterDraw attempt (r + 1)).result =
          (retryAux attempts delay maxDelay jitterDraw (attempt + 1) r).result := by
        simp [retryAux, he, hte]
      have hmade : (retryAux attempts delay maxDelay jitterDraw attempt
          (r + 1)).attemptsMade =
          (retryAux attempts delay maxDelay jitterDraw (attempt + 1) r).attemptsMade + 1 := by
        simp [retryAux, he, hte]
      have hdel : (retryAux attempts delay maxDelay jitterDraw attempt (r + 1)).delays =
          backoffDelay delay maxDelay jitterDraw attempt ::
            (retryAux attempts delay maxDelay jitterDraw (attempt + 1) r).delays := by
        simp [retryAux, he, hte]
      obtain ⟨ihres, ihmade, ihdel⟩ := ih (attempt + 1) r (by omega)
        (fun i hi => by
          obtain ⟨e', he', hte'⟩ := hfail (i + 1) (by omega)
          exact ⟨e', by rw [← he']; ring_nf, hte'⟩)
      have harith : attempt + 1 + k = attempt + (k + 1) := by omega
      have hsub : r - k = r + 1 - (k + 1) := by omega
      rw [harith, hsub] at ihres ihmade ihdel
      refine ⟨hres.trans ihres, ?_, ?_⟩
      · rw [hmade, ihmade]; omega
      · rw [hdel, ihdel, List.range_succ_eq_map, List.map_cons, List.map_map,
          List.cons_append]
        have hmap : List.map
            (fun t => backoffDelay delay maxDelay jitterDraw (attempt + 1 + t))
            (List.range k) =
            List.map
              ((fun t => backoffDelay delay maxDelay jitterDraw (attempt + t)) ∘ Nat.succ)
              (List.range k) := by
          apply List.map_congr_left
          intro t _
          simp only [Function.comp_apply]
          congr 1
          omega
        rw [hmap]
        simp

/-- Every attempt up to the bound failing means the run ends in the error of
the last attempt actually performed. -/
theorem retryAux_lastError {α : Type} (attempts : ℕ → FetchOutcome α)
    (delay maxDelay : ℚ) (jitterDraw : ℕ → ℚ) :
    ∀ (remaining attempt : ℕ),
      (∀ i, attempt ≤ i → i ≤ attempt + remaining →
        ∃ e, attempts i = .failure e) →
      ∃ e, attempts (attempt +
          ((retryAux attempts delay maxDelay jitterDraw attempt remaining).attemptsMade - 1)) =
            .failure e ∧
        (retryAux attempts delay maxDelay jitterDraw attempt remaining).result =
          .error e := by
  intro remaining
  induction remaining with
  | zero =>
      intro attempt hfail
      obtain ⟨e, he⟩ := hfail attempt le_rfl (by omega)
      refine ⟨e, ?_, by simp [retryAux, he]⟩
      have : (retryAux attempts delay maxDelay jitterDraw attempt 0).attemptsMade = 1 := by
        simp [retryAux, he]
      rw [this]
      simpa using he
  | succ r ih =>
      intro attempt hfail
      obtain ⟨e, he⟩ := hfail attempt le_rfl (by omega)
      cases ht : throwsImmediately e with
      | true =>
          refine ⟨e, ?_, by simp [retryAux, he, ht]⟩
          have : (retryAux attempts delay maxDelay jitterDraw attempt
              (r + 1)).attemptsMade = 1 := by
            simp [retryAux, he, ht]
          rw [this]
          simpa using he
      | false =>
          obtain ⟨e', he', hres'⟩ := ih (attempt + 1)
            (fun i h1 h2 => hfail i (by omega) (by omega))
          have hpos := retryAux_attemptsMade_pos attempts delay maxDelay jitterDraw
            (attempt + 1) r
          have hmade : (retryAux attempts delay maxDelay jitterDraw attempt
              (r + 1)).attemptsMade =
              (retryAux attempts delay maxDelay jitterDraw (attempt + 1) r).attemptsMade + 1 := by
            simp [retryAux, he, ht]
          have hres : (retryAux attempts delay maxDelay jitterDraw attempt
              (r + 1)).result =
              (retryAux attempts delay maxDelay jitterDraw (attempt + 1) r).result := by
            simp [retryAux, he, ht]
          refine ⟨e', ?_, by rw [hres]; exact hres'⟩
          rw [hmade]
          rw [show attempt +
              ((retryAux attempts delay maxDelay jitterDraw (attempt + 1) r).attemptsMade + 1 - 1) =
              attempt + 1 +
              ((retryAux attempts delay maxDelay jitterDraw (attempt + 1) r).attemptsMade - 1)
            from by omega]
          exact he'

/-- C9: inside `retryFastapiRequest`, a transient failure (network error,
HTTP 5xx, or HTTP 429) of an attempt below the retry cap triggers a further
attempt, preceded by the capped exponential backoff delay
`min(delay·2^k, maxDelay)` plus jitter; a non-transient axios failure (any
other HTTP error response, e.g. a 4xx) makes the call throw that error at
once — no retry, no further delay. -/
theorem C9_retry_policy {α : Type} (attempts : ℕ → FetchOutcome α)
    (retries : ℕ) (delay maxDelay : ℚ) (jitterDraw : ℕ → ℚ) (k : ℕ)
    (hk : k < retries)
    (hprev : ∀ i, i < k → ∃ e, attempts i = .failure e ∧
      throwsImmediately e = false) :
    (∀ e, attempts k = .failure e → throwsImmediately e = false →
      k + 2 ≤ (retryFastapiRequest attempts retries delay maxDelay jitterDraw).attemptsMade ∧
      (retryFastapiRequest attempts retries delay maxDelay jitterDraw).delays[k]? =
        some (backoffDelay delay maxDelay jitterDraw k)) ∧
    (∀ e, attempts k = .failure e → throwsImmediately e = true →
      (retryFastapiRequest attempts retries delay maxDelay jitterDraw).result =
        .error e ∧
      (retryFastapiRequest attempts retries delay maxDelay jitterDraw).attemptsMade =
        k + 1 ∧
      (retryFastapiRequest attempts retries delay maxDelay jitterDraw).delays.length =
        k) := by
  constructor
  · intro e he hte
    obtain ⟨hres, hmade, hdel⟩ := retryAux_reach attempts delay maxDelay jitterDraw
      (k + 1) 0 retries (by omega)
      (fun i hi => by
        rcases Nat.lt_succ_iff_lt_or_eq.mp hi with h | h
        · obtain ⟨e', he', hte'⟩ := hprev i h
          exact ⟨e', by simpa using he', hte'⟩
        · subst h
          exact ⟨e, by simpa using he, hte⟩)
    unfold retryFastapiRequest
    have hpos := retryAux_attemptsMade_pos attempts delay maxDelay jitterDraw
      (0 + (k + 1)) (retries - (k + 1))
    constructor
    · rw [hmade]; omega
    · rw [hdel]
      have hlen : ((List.range (k + 1)).map
          (fun t => backoffDelay delay maxDelay jitterDraw (0 + t))).length = k + 1 := by
        simp
      rw [List.getElem?_append, if_pos (by rw [hlen]; omega), List.getElem?_map,
        List.getElem?_range (Nat.lt_succ_self k)]
      simp
  · intro e he hte
    obtain ⟨hres, hmade, hdel⟩ := retryAux_reach attempts delay maxDelay jitterDraw
      k 0 retries (by omega)
      (fun i hi => by
        obtain ⟨e', he', hte'⟩ := hprev i hi
        exact ⟨e', by simpa using he', hte'⟩)
    unfold retryFastapiRequest
    obtain ⟨rr, hrr⟩ : ∃ rr, retries - k = rr + 1 := ⟨retries - k - 1, by omega⟩
    have h0k : 0 + k = k := by omega
    rw [h0k, hrr] at hres hmade hdel
    have htres : (retryAux attempts delay maxDelay jitterDraw k (rr + 1)).result =
        .error e := by
      simp [retryAux, he, hte]
    have htmade : (retryAux attempts delay maxDelay jitterDraw k (rr + 1)).attemptsMade =
        1 := by
      simp [retryAux, he, hte]
    have htdel : (retryAux attempts delay maxDelay jitterDraw k (rr + 1)).delays = [] := by
      simp [retryAux, he, hte]
    refine ⟨by rw [hres, htres], by rw [hmade, htmade], ?_⟩
    rw [hdel, htdel]
    simp

/-- C10: the retry loop always terminates after at most `retries + 1`
attempts (and performs at least one); and when every allowed attempt fails,
the call throws the error of the last attempt it performed instead of
looping or returning a success value. -/
theorem C10_retry_terminates {α : Type} (attempts : ℕ → FetchOutcome α)
    (retries : ℕ) (delay maxDelay : ℚ) (jitterDraw : ℕ → ℚ) :
    1 ≤ (retryFastapiRequest attempts retries delay maxDelay jitterDraw).attemptsMade ∧
    (retryFastapiRequest attempts retries delay maxDelay jitterDraw).attemptsMade ≤
      retries + 1 ∧
    ((∀ i, i ≤ retries → ∃ e, attempts i = .failure e) →
      ∃ e, attempts
          ((retryFastapiRequest attempts retries delay maxDelay jitterDraw).attemptsMade - 1) =
            .failure e ∧
        (retryFastapiRequest attempts retries delay maxDelay jitterDraw).result =
          .error e) := by
  refine ⟨retryAux_attemptsMade_pos attempts delay maxDelay jitterDraw 0 retries,
    retryAux_attemptsMade_le attempts delay maxDelay jitterDraw retries 0, ?_⟩
  intro hfail
  have := retryAux_lastError attempts delay maxDelay jitterDraw retries 0
    (fun i h1 h2 => hfail i (by omega))
  simpa [retryFastapiRequest] using this

/-- Concrete attempt schedule for the C9 witness: attempt 0 fails with a
retryable HTTP 503, attempt 1 with a non-retryable HTTP 404. -/
def attemptsServerThenClient : ℕ → FetchOutcome ℕ := fun i =>
  if i = 0 then .failure (.axios true 503) else .failure (.axios true 404)

theorem C9_witness :
    (retryFastapiRequest attemptsServerThenClient 3 1000 10000
        (fun _ => 0)).result = .error (.axios true 404) ∧
    (retryFastapiRequest attemptsServerThenClient 3 1000 10000
        (fun _ => 0)).attemptsMade = 1 + 1 ∧
    (retryFastapiRequest attemptsServerThenClient 3 1000 10000
        (fun _ => 0)).delays.length = 1 :=
  (C9_retry_policy attemptsServerThenClient 3 1000 10000 (fun _ => 0) 1
      (by norm_num)
      (fun i hi => by
        have h0 : i = 0 := by omega
        subst h0
        exact ⟨.axios true 503, rfl, rfl⟩)).2
    (.axios true 404) rfl rfl

/-- Concrete attempt schedule for the C10 witness: every attempt throws a
non-axios error. -/
def attemptsAlwaysFail : ℕ → FetchOutcome ℕ := fun _ => .failure .other

theorem C10_witness :
    1 ≤ (retryFastapiRequest attemptsAlwaysFail 2 1000 10000
        (fun _ => 0)).attemptsMade ∧
    (retryFastapiRequest attemptsAlwaysFail 2 1000 10000
        (fun _ => 0)).attemptsMade ≤ 2 + 1 ∧
    ∃ e, attemptsAlwaysFail
        ((retryFastapiRequest attemptsAlwaysFail 2 1000 10000
          (fun _ => 0)).attemptsMade - 1) = .failure e ∧
      (retryFastapiRequest attemptsAlwaysFail 2 1000 10000
        (fun _ => 0)).result = .error e := by
  have h := C10_retry_terminates attemptsAlwaysFail 2 1000 10000 (fun _ => 0)
  exact ⟨h.1, h.2.1, h.2.2 (fun i _ => ⟨.other, rfl⟩)⟩

end RegLex
